import Mathlib

/-
Verification of the grid-aware acquisition store-index remapper of
`pymmcore_plus_sandbox` (class `GridPlanTensorStoreHandler` in
`src/pymmcore_plus_sandbox/__init__.py`).

The embedding models Python numbers (ints and floats) as exact integers and
rationals, Python `dict`s as association lists with distinct keys, Python
`slice(a, b)` as a pair of integers, and a raised exception as the `error`
case of `Except String`.
-/

namespace Pymmcore

/-- Python `int(...)` applied to an exact rational value: truncation toward
zero (`int(2.5) = 2`, `int(-2.5) = -2`). -/
def pyInt (q : ℚ) : ℤ := if 0 ≤ q then ⌊q⌋ else -⌊-q⌋

/-- Python `slice(start, stop)` with integer endpoints, as used for the x/y
sub-ranges of the canvas. -/
structure Slice where
  start : ℤ
  stop : ℤ
deriving DecidableEq

/-- A value stored in a frame/store index: either a plain integer coordinate or
a slice (the code's `Mapping[str, int | slice]`). -/
inductive IndexValue where
  | int (n : ℤ)
  | slc (s : Slice)
deriving DecidableEq

/-- The `useq.GridRowsColumns` plan data the handler reads: `rows`, `columns`,
the per-axis `overlap` pair, and the field-of-view size `fov_width` ×
`fov_height`. -/
structure GridRowsColumns where
  rows : ℕ
  columns : ℕ
  overlap : ℚ × ℚ
  fov_width : ℚ
  fov_height : ℚ
deriving DecidableEq

/-- The grid-plan variants a sequence may carry: the uniform rows × columns
grid handled by the code, and other variants (edge-defined grids,
explicit point lists) that the code rejects. -/
inductive GridPlan where
  | rowsColumns (gp : GridRowsColumns)
  | fromEdges (top bottom left right : ℚ)
  | explicitPoints (points : List (ℚ × ℚ))
deriving DecidableEq

/-- One field-of-view position `(x, y)` of the grid, in the same units as
`fov_width` / `fov_height`. -/
structure FieldPosition where
  x : ℚ
  y : ℚ
deriving DecidableEq

/-- Modelled from the spec: the ordered enumeration of field positions that
`gp.iter_grid_positions()` yields for a `GridRowsColumns` plan.  This method
lives in the external sequence/grid-plan library (`useq`), not in this
repository; the spec describes the sequence as one `FieldPosition` per grid
cell, row-major, top-left convention with y growing downward, adjacent fields
separated by the field size minus the per-axis overlap amount.  This
reproduces the spec's concrete scenario: a 2×2 grid with `fov_width =
fov_height = 10` and zero overlap yields `(0,0), (10,0), (0,10), (10,10)` for
`g = 0..3`. -/
def iter_grid_positions (gp : GridRowsColumns) : List FieldPosition :=
  (List.range gp.rows).flatMap fun r =>
    (List.range gp.columns).map fun c =>
      ⟨(c : ℚ) * (gp.fov_width - gp.overlap.1),
       (r : ℚ) * (gp.fov_height - gp.overlap.2)⟩

/-- The state `GridPlanTensorStoreHandler._evaluate_grid_plan` stores on the
handler: `self._width`, `self._height`, `self._fov`, `self._min`,
`self._idx_to_pos`, `self._r`, `self._c`. -/
structure GridHandlerState where
  width : ℤ
  height : ℤ
  fov : ℤ × ℤ
  minPos : ℚ × ℚ
  idx_to_pos : List FieldPosition
  r : ℕ
  c : ℕ
deriving DecidableEq

/-- `GridPlanTensorStoreHandler._evaluate_grid_plan` (source lines 515–531):
for a `GridRowsColumns` plan it computes
`w = h = fov_width * rows - overlap[0] * (rows - 1)` (both formulas are
written with `fov_width` and `rows` in the source), converts them with
`int(...)`, caches the field positions, and folds the componentwise minimum of
the positions starting from `[0.0, 0.0]`; any other plan raises
`ValueError("Unrecognized GridPlan:")`. -/
def evaluate_grid_plan (plan : GridPlan) : Except String GridHandlerState :=
  match plan with
  | .rowsColumns gp =>
    let w : ℚ := gp.fov_width * gp.rows - gp.overlap.1 * ((gp.rows : ℚ) - 1)
    let h : ℚ := gp.fov_width * gp.rows - gp.overlap.1 * ((gp.rows : ℚ) - 1)
    let positions := iter_grid_positions gp
    let m := positions.foldl (fun acc p => (min acc.1 p.x, min acc.2 p.y)) (0, 0)
    .ok { width := pyInt w, height := pyInt h,
          fov := (pyInt gp.fov_width, pyInt gp.fov_height),
          minPos := m, idx_to_pos := positions,
          r := gp.rows, c := gp.columns }
  | _ => .error "Unrecognized GridPlan:"

/-- Python list subscription `l[i]` with an `int` subscript: indices in
`[0, len)` are direct, indices in `[-len, 0)` wrap around to `l[i + len]`, and
anything else raises `IndexError` (modelled as `none`). -/
def pyListGet (l : List FieldPosition) (i : ℤ) : Option FieldPosition :=
  if 0 ≤ i then l.get? i.toNat
  else if 0 ≤ i + l.length then l.get? (i + l.length).toNat
  else none

/-- `GridPlanTensorStoreHandler._event_index_to_store_index` (source lines
492–513).  The index mapping is split into its key and value lists
(`zip(*index.items())`, which raises `ValueError` on an empty mapping); when
the grid axis `"g"` is among the keys, the position for the grid value is
looked up in `self._idx_to_pos`, translated by `self._min`, the `"g"` entry is
dropped and `"x"`/`"y"` slice entries of extent `self._fov` are appended.  The
`else` branch of `if self._nd_storage` raises `NotImplementedError`. -/
def event_index_to_store_index (nd_storage : Bool) (st : GridHandlerState)
    (index : List (String × ℤ)) : Except String (List (String × IndexValue)) :=
  if nd_storage then
    if index = [] then .error "ValueError"
    else
      let keys := index.map Prod.fst
      let values := index.map Prod.snd
      if "g" ∈ keys then
        let g_idx := keys.indexOf "g"
        match pyListGet st.idx_to_pos (values.getD g_idx 0) with
        | none => .error "IndexError"
        | some pos =>
          let x := pyInt (pos.x - st.minPos.1)
          let y := pyInt (pos.y - st.minPos.2)
          let keys2 := keys.take g_idx ++ keys.drop (g_idx + 1) ++ ["x", "y"]
          let values2 :=
            (values.take g_idx ++ values.drop (g_idx + 1)).map IndexValue.int
              ++ [IndexValue.slc ⟨x, x + st.fov.1⟩, IndexValue.slc ⟨y, y + st.fov.2⟩]
          .ok (keys2.zip values2)
      else .ok (index.map fun kv => (kv.1, IndexValue.int kv.2))
  else .error "NotImplementedError"

/-- `GridPlanTensorStoreHandler.get_shape_chunks_labels` (source lines
470–490), applied to the base `(shape, chunks, labels)` triple the external
base-class layout produced for a single field.  When `"g"` is among the
labels, the grid entry is sliced out of `chunks` and `labels`, the shape
entries at the `"x"`/`"y"` label positions are overwritten with the stitched
canvas width/height, and the grid entry is popped from `shape`.  Python raises
`ValueError` when `labels.index("x")`/`labels.index("y")` fails and
`IndexError` when an assignment or `pop` position is outside `shape`. -/
def get_shape_chunks_labels (st : GridHandlerState) (shape chunks : List ℤ)
    (labels : List String) : Except String (List ℤ × List ℤ × List String) :=
  if "g" ∈ labels then
    if "x" ∈ labels ∧ "y" ∈ labels then
      let g_idx := labels.indexOf "g"
      let x_idx := labels.indexOf "x"
      let y_idx := labels.indexOf "y"
      if x_idx < shape.length ∧ y_idx < shape.length ∧ g_idx < shape.length then
        let chunks2 := chunks.take g_idx ++ chunks.drop (g_idx + 1)
        let shape2 := (shape.set x_idx st.width).set y_idx st.height
        let shape3 := shape2.take g_idx ++ shape2.drop (g_idx + 1)
        let labels2 := labels.take g_idx ++ labels.drop (g_idx + 1)
        .ok (shape3, chunks2, labels2)
      else .error "IndexError"
    else .error "ValueError"
  else .ok (shape, chunks, labels)

/-- The spec's concrete 2×2 plan: `fov_width = fov_height = 10`, zero
overlap. -/
def demoPlan : GridRowsColumns := ⟨2, 2, (0, 0), 10, 10⟩

/-- The handler state derived from `demoPlan`: a 20×20 canvas over the four
field positions `(0,0), (10,0), (0,10), (10,10)`. -/
def demoState : GridHandlerState :=
  ⟨20, 20, (10, 10), (0, 0), [⟨0, 0⟩, ⟨10, 0⟩, ⟨0, 10⟩, ⟨10, 10⟩], 2, 2⟩

/-- A 1×2 plan (one row, two columns), `fov_width = fov_height = 10`, zero
overlap. -/
def skewPlan : GridRowsColumns := ⟨1, 2, (0, 0), 10, 10⟩

/-- The handler state derived from `skewPlan`: the canvas is sized 10×10 from
the row count although the two field positions `(0,0), (10,0)` span 20 units
in x. -/
def skewState : GridHandlerState :=
  ⟨10, 10, (10, 10), (0, 0), [⟨0, 0⟩, ⟨10, 0⟩], 1, 2⟩

/-- A single-field 1×1 plan, `fov_width = fov_height = 10`, zero overlap. -/
def singlePlan : GridRowsColumns := ⟨1, 1, (0, 0), 10, 10⟩

/-- The handler state derived from `singlePlan`: one field at `(0, 0)` on a
10×10 canvas. -/
def singleState : GridHandlerState :=
  ⟨10, 10, (10, 10), (0, 0), [⟨0, 0⟩], 1, 1⟩

lemma evaluate_demo : evaluate_grid_plan (.rowsColumns demoPlan) = .ok demoState := by
  show Except.ok _ = _
  norm_num [demoPlan, demoState, iter_grid_positions, pyInt, List.range_succ]

lemma evaluate_skew : evaluate_grid_plan (.rowsColumns skewPlan) = .ok skewState := by
  show Except.ok _ = _
  norm_num [skewPlan, skewState, iter_grid_positions, pyInt, List.range_succ]

lemma evaluate_single : evaluate_grid_plan (.rowsColumns singlePlan) = .ok singleState := by
  show Except.ok _ = _
  norm_num [singlePlan, singleState, iter_grid_positions, pyInt, List.range_succ]

lemma translate_demo_g3 :
    event_index_to_store_index true demoState [("g", 3), ("t", 1)]
      = .ok [("t", .int 1), ("x", .slc ⟨10, 20⟩), ("y", .slc ⟨10, 20⟩)] := by
  norm_num [event_index_to_store_index, demoState, pyListGet, pyInt,
    List.indexOf, List.findIdx, List.findIdx.go,
    show Int.toNat 3 = 3 from rfl, List.getElem_cons_succ, List.getElem_cons_zero]
  exact fun h => (List.cons_ne_nil _ _ h).elim

lemma translate_skew_g1 :
    event_index_to_store_index true skewState [("g", 1)]
      = .ok [("x", .slc ⟨10, 20⟩), ("y", .slc ⟨0, 10⟩)] := by
  norm_num [event_index_to_store_index, skewState, pyListGet, pyInt,
    List.indexOf, List.findIdx, List.findIdx.go,
    show Int.toNat 1 = 1 from rfl, List.getElem_cons_succ, List.getElem_cons_zero]

lemma foldl_minPair_fst (ps : List FieldPosition) (a b : ℚ) :
    (ps.foldl (fun acc p => (min acc.1 p.x, min acc.2 p.y)) (a, b)).1
      = (ps.map FieldPosition.x).foldl min a := by
  induction ps generalizing a b with
  | nil => rfl
  | cons p ps ih =>
    simp only [List.foldl_cons, List.map_cons]
    exact ih _ _

lemma foldl_minPair_snd (ps : List FieldPosition) (a b : ℚ) :
    (ps.foldl (fun acc p => (min acc.1 p.x, min acc.2 p.y)) (a, b)).2
      = (ps.map FieldPosition.y).foldl min b := by
  induction ps generalizing a b with
  | nil => rfl
  | cons p ps ih =>
    simp only [List.foldl_cons, List.map_cons]
    exact ih _ _

lemma foldl_min_le_init (l : List ℚ) (d : ℚ) : l.foldl min d ≤ d := by
  induction l generalizing d with
  | nil => exact le_refl d
  | cons q l ih =>
    simp only [List.foldl_cons]
    exact le_trans (ih (min d q)) (min_le_left d q)

lemma foldl_min_le_mem (l : List ℚ) (q : ℚ) : q ∈ l → ∀ d, l.foldl min d ≤ q := by
  induction l with
  | nil => exact fun hq => absurd hq (List.not_mem_nil q)
  | cons p l ih =>
    intro hq d
    simp only [List.foldl_cons]
    rcases List.mem_cons.mp hq with h | h
    · subst h
      exact le_trans (foldl_min_le_init l (min d q)) (min_le_right d q)
    · exact ih h (min d p)

lemma foldl_min_init_or_mem (l : List ℚ) : ∀ d, l.foldl min d = d ∨ l.foldl min d ∈ l := by
  induction l with
  | nil => exact fun d => Or.inl rfl
  | cons p l ih =>
    intro d
    simp only [List.foldl_cons]
    rcases ih (min d p) with h | h
    · rw [h]
      rcases le_total d p with hdp | hdp
      · exact Or.inl (min_eq_left hdp)
      · exact Or.inr (by rw [min_eq_right hdp]; exact List.mem_cons_self p l)
    · exact Or.inr (List.mem_cons_of_mem p h)

lemma origin_mem_iter (gp : GridRowsColumns) (hr : 1 ≤ gp.rows) (hc : 1 ≤ gp.columns) :
    (⟨0, 0⟩ : FieldPosition) ∈ iter_grid_positions gp := by
  obtain ⟨rr, hrr⟩ : ∃ rr, gp.rows = rr + 1 :=
    ⟨gp.rows - 1, (Nat.succ_pred_eq_of_pos hr).symm⟩
  obtain ⟨cc, hcc⟩ : ∃ cc, gp.columns = cc + 1 :=
    ⟨gp.columns - 1, (Nat.succ_pred_eq_of_pos hc).symm⟩
  unfold iter_grid_positions
  simp only [hrr, hcc, List.range_succ_eq_map, List.flatMap_cons, List.map_cons]
  refine List.mem_cons.mpr (Or.inl ?_)
  simp

/-- C2: the derived canvas offset is the exact componentwise minimum over the
derived field positions: `_min[0]` is a member of the x-coordinates of
`_idx_to_pos` and a lower bound for them, and likewise `_min[1]` for the
y-coordinates. -/
theorem C2_min_offset_exact (gp : GridRowsColumns) (hr : 1 ≤ gp.rows)
    (hc : 1 ≤ gp.columns) (st : GridHandlerState)
    (hst : evaluate_grid_plan (.rowsColumns gp) = .ok st) :
    (st.minPos.1 ∈ st.idx_to_pos.map FieldPosition.x
      ∧ ∀ q ∈ st.idx_to_pos.map FieldPosition.x, st.minPos.1 ≤ q)
    ∧ (st.minPos.2 ∈ st.idx_to_pos.map FieldPosition.y
      ∧ ∀ q ∈ st.idx_to_pos.map FieldPosition.y, st.minPos.2 ≤ q) := by
  have hmem := origin_mem_iter gp hr hc
  simp only [evaluate_grid_plan, Except.ok.injEq] at hst
  subst hst
  simp only
  rw [foldl_minPair_fst, foldl_minPair_snd]
  refine ⟨⟨?_, fun q hq => foldl_min_le_mem _ q hq 0⟩,
          ⟨?_, fun q hq => foldl_min_le_mem _ q hq 0⟩⟩
  · rcases foldl_min_init_or_mem ((iter_grid_positions gp).map FieldPosition.x) 0 with h | h
    · rw [h]
      exact List.mem_map.mpr ⟨⟨0, 0⟩, hmem, rfl⟩
    · exact h
  · rcases foldl_min_init_or_mem ((iter_grid_positions gp).map FieldPosition.y) 0 with h | h
    · rw [h]
      exact List.mem_map.mpr ⟨⟨0, 0⟩, hmem, rfl⟩
    · exact h

/-- C2 witness: for the single-field 1×1 plan the derived minimum is the sole
field's coordinates `(0, 0)`. -/
theorem C2_witness :
    1 ≤ singlePlan.rows ∧ 1 ≤ singlePlan.columns
    ∧ ((singleState.minPos.1 ∈ singleState.idx_to_pos.map FieldPosition.x
        ∧ ∀ q ∈ singleState.idx_to_pos.map FieldPosition.x, singleState.minPos.1 ≤ q)
      ∧ (singleState.minPos.2 ∈ singleState.idx_to_pos.map FieldPosition.y
        ∧ ∀ q ∈ singleState.idx_to_pos.map FieldPosition.y, singleState.minPos.2 ≤ q)) :=
  ⟨by decide, by decide,
   C2_min_offset_exact singlePlan (by decide) (by decide) singleState evaluate_single⟩

/-- C3: a 2×2 grid with `fov_width = fov_height = 10` and zero overlap has
field positions `(0,0), (10,0), (0,10), (10,10)` for `g = 0..3` and a 20×20
canvas, and translating the frame index `{"g": 3, "t": 1}` yields the store
region `{"t": 1, "x": slice(10, 20), "y": slice(10, 20)}`. -/
theorem C3_concrete_scenario :
    evaluate_grid_plan (.rowsColumns demoPlan) = .ok demoState
    ∧ demoState.width = 20 ∧ demoState.height = 20
    ∧ demoState.idx_to_pos = [⟨0, 0⟩, ⟨10, 0⟩, ⟨0, 10⟩, ⟨10, 10⟩]
    ∧ event_index_to_store_index true demoState [("g", 3), ("t", 1)]
        = .ok [("t", .int 1), ("x", .slc ⟨10, 20⟩), ("y", .slc ⟨10, 20⟩)] :=
  ⟨evaluate_demo, rfl, rfl, rfl, translate_demo_g3⟩

/-- C1: the containment invariant is violated by the code.  For the 1×2 plan
with `fov_width = fov_height = 10` and zero overlap, the canvas width is
computed from `rows` as 10, yet translating the frame index `{"g": 1}` yields
the x-slice `slice(10, 20)`, which does not lie within `[0, 10)`. -/
theorem C1_containment_violated :
    evaluate_grid_plan (.rowsColumns skewPlan) = .ok skewState
    ∧ skewState.width = 10
    ∧ event_index_to_store_index true skewState [("g", 1)]
        = .ok [("x", .slc ⟨10, 20⟩), ("y", .slc ⟨0, 10⟩)]
    ∧ ¬((20 : ℤ) ≤ skewState.width) :=
  ⟨evaluate_skew, rfl, translate_skew_g1, by decide⟩

/-- C4 counterexample: a negative grid-axis value does not fail.  Translating
`{"g": -1}` against the 2×2 demo state succeeds (Python list indexing wraps
around to the last field position) instead of raising `IndexError`. -/
theorem C4_negative_index_counterexample :
    event_index_to_store_index true demoState [("g", -1)]
      = .ok [("x", .slc ⟨10, 20⟩), ("y", .slc ⟨10, 20⟩)] := by
  norm_num [event_index_to_store_index, demoState, pyListGet, pyInt,
    List.indexOf, List.findIdx, List.findIdx.go, show Int.toNat 3 = 3 from rfl,
    List.getElem_cons_succ, List.getElem_cons_zero]

lemma keys_ne_nil {index : List (String × ℤ)} (h : "g" ∈ index.map Prod.fst) :
    index ≠ [] := by
  intro hnil
  subst hnil
  simp at h

lemma lookup_mem_getD (index : List (String × ℤ)) (k : String) (v : ℤ) :
    index.lookup k = some v →
      k ∈ index.map Prod.fst
      ∧ (index.map Prod.snd).getD ((index.map Prod.fst).indexOf k) 0 = v := by
  induction index with
  | nil => intro h; cases h
  | cons kv rest ih =>
    obtain ⟨k1, v1⟩ := kv
    intro h
    by_cases hk : k1 = k
    · subst hk
      simp only [List.lookup_cons, beq_self_eq_true, if_true, Option.some.injEq] at h
      subst h
      refine ⟨List.mem_cons_self _ _, ?_⟩
      simp [List.indexOf_cons_self]
    · have hbeq : (k == k1) = false := beq_eq_false_iff_ne.mpr (Ne.symm hk)
      simp only [List.lookup_cons, hbeq, Bool.false_eq_true, if_false] at h
      obtain ⟨hmem, hval⟩ := ih h
      refine ⟨List.mem_cons_of_mem _ hmem, ?_⟩
      simpa [List.indexOf_cons_ne _ hk] using hval

lemma translate_g_error (st : GridHandlerState) (index : List (String × ℤ))
    (hg : "g" ∈ index.map Prod.fst)
    (hnone : pyListGet st.idx_to_pos
        ((index.map Prod.snd).getD ((index.map Prod.fst).indexOf "g") 0) = none) :
    event_index_to_store_index true st index = .error "IndexError" := by
  simp only [event_index_to_store_index, if_pos, if_neg (keys_ne_nil hg), if_pos hg, hnone]

/-- C4 (amended): a grid-axis value `g` with `g ≥ len(fieldPositions)` or
`g < -len(fieldPositions)` makes the translation fail with `IndexError`,
producing no store region; grid-axis values in `[-len, 0)` are instead
resolved by Python wrap-around list indexing. -/
theorem C4_out_of_range_error (st : GridHandlerState) (index : List (String × ℤ))
    (gv : ℤ) (hgl : index.lookup "g" = some gv)
    (hout : (st.idx_to_pos.length : ℤ) ≤ gv ∨ gv < -(st.idx_to_pos.length : ℤ)) :
    event_index_to_store_index true st index = .error "IndexError" := by
  obtain ⟨hg, hval⟩ := lookup_mem_getD index "g" gv hgl
  apply translate_g_error st index hg
  rw [hval]
  unfold pyListGet
  rcases hout with h | h
  · have h0 : 0 ≤ gv := le_trans (Int.natCast_nonneg _) h
    rw [if_pos h0]
    apply List.get?_eq_none.mpr
    have := Int.toNat_le_toNat h
    simpa using this
  · have hlen : (0 : ℤ) ≤ st.idx_to_pos.length := Int.natCast_nonneg _
    have h0 : ¬ 0 ≤ gv := by linarith
    have h1 : ¬ (0 : ℤ) ≤ gv + st.idx_to_pos.length := by linarith
    rw [if_neg h0, if_neg h1]

/-- C4 witness: the grid value 4 is out of range for the four demo fields. -/
theorem C4_witness :
    List.lookup "g" [("g", (4 : ℤ))] = some 4
    ∧ event_index_to_store_index true demoState [("g", 4)] = .error "IndexError" :=
  ⟨rfl, C4_out_of_range_error demoState [("g", 4)] 4 rfl
    (Or.inl (by norm_num [demoState]))⟩

/-- C7: any grid-plan variant other than `GridRowsColumns` makes
`_evaluate_grid_plan` fail with the `Unrecognized GridPlan` error, producing
no handler state. -/
theorem C7_unsupported_plan (plan : GridPlan)
    (h : ∀ gp, plan ≠ GridPlan.rowsColumns gp) :
    evaluate_grid_plan plan = .error "Unrecognized GridPlan:" := by
  cases plan with
  | rowsColumns gp => exact absurd rfl (h gp)
  | fromEdges a b c d => rfl
  | explicitPoints pts => rfl

/-- C7 witness: an explicit-points plan is rejected. -/
theorem C7_witness :
    (∀ gp, GridPlan.explicitPoints [] ≠ GridPlan.rowsColumns gp)
    ∧ evaluate_grid_plan (.explicitPoints []) = .error "Unrecognized GridPlan:" :=
  ⟨(fun _ h => nomatch h), C7_unsupported_plan _ (fun _ h => nomatch h)⟩

lemma take_drop_map_eraseIdx {α β : Type} (f : α → β) (l : List α) (n : ℕ) :
    (l.map f).take n ++ (l.map f).drop (n + 1) = (l.eraseIdx n).map f := by
  rw [List.eraseIdx_eq_take_drop_succ, List.map_append, List.map_take, List.map_drop]

lemma zip_parts (l : List (String × ℤ)) (a b : String) (u v : IndexValue) :
    (l.map Prod.fst ++ [a, b]).zip ((l.map Prod.snd).map IndexValue.int ++ [u, v])
      = l.map (fun kv => (kv.1, IndexValue.int kv.2)) ++ [(a, u), (b, v)] := by
  induction l with
  | nil => rfl
  | cons kv l ih =>
    simp only [List.map_cons, List.cons_append, List.zip_cons_cons, ih]

lemma translate_g_some (st : GridHandlerState) (index : List (String × ℤ))
    (pos : FieldPosition) (hg : "g" ∈ index.map Prod.fst)
    (hsome : pyListGet st.idx_to_pos
        ((index.map Prod.snd).getD ((index.map Prod.fst).indexOf "g") 0) = some pos) :
    event_index_to_store_index true st index
      = .ok ((index.eraseIdx ((index.map Prod.fst).indexOf "g")).map
            (fun kv => (kv.1, IndexValue.int kv.2))
          ++ [("x", .slc ⟨pyInt (pos.x - st.minPos.1),
                          pyInt (pos.x - st.minPos.1) + st.fov.1⟩),
              ("y", .slc ⟨pyInt (pos.y - st.minPos.2),
                          pyInt (pos.y - st.minPos.2) + st.fov.2⟩)]) := by
  simp only [event_index_to_store_index, if_pos, if_neg (keys_ne_nil hg), if_pos hg,
    hsome]
  rw [take_drop_map_eraseIdx Prod.fst index, take_drop_map_eraseIdx Prod.snd index,
    zip_parts]

lemma filter_keyne_all (l : List (String × ℤ)) (a : String)
    (h : a ∉ l.map Prod.fst) : l.filter (fun kv => kv.1 != a) = l := by
  induction l with
  | nil => rfl
  | cons kv rest ih =>
    have h1 : kv.1 ≠ a := by
      intro he
      exact h (by simp [he])
    have h2 : a ∉ rest.map Prod.fst := fun hm => h (List.mem_cons_of_mem _ hm)
    simp [List.filter_cons, h1, ih h2]

lemma eraseIdx_indexOf_eq_filter (index : List (String × ℤ))
    (hnd : (index.map Prod.fst).Nodup) (hg : "g" ∈ index.map Prod.fst) :
    index.eraseIdx ((index.map Prod.fst).indexOf "g")
      = index.filter (fun kv => kv.1 != "g") := by
  induction index with
  | nil => rfl
  | cons kv rest ih =>
    simp only [List.map_cons] at hnd hg ⊢
    rcases List.nodup_cons.mp hnd with ⟨hhead, hnd2⟩
    by_cases hk : kv.1 = "g"
    · rw [List.indexOf_cons_eq _ hk, List.eraseIdx_cons_zero]
      have hrest : "g" ∉ rest.map Prod.fst := hk ▸ hhead
      have hfk : (kv.1 != "g") = false := by simp [hk]
      rw [List.filter_cons, hfk]
      simp only [cond_false, Bool.false_eq_true, if_false]
      exact (filter_keyne_all rest "g" hrest).symm
    · have hg2 : "g" ∈ rest.map Prod.fst := by
        rcases List.mem_cons.mp hg with h | h
        · exact absurd h.symm hk
        · exact h
      have htk : (kv.1 != "g") = true := by simp [hk]
      rw [List.indexOf_cons_ne _ hk, List.filter_cons, htk]
      simp only [if_true]
      rw [List.eraseIdx_cons_succ, ih hnd2 hg2]

/-- C5: for a frame index with pairwise-distinct keys that contains the grid
axis `"g"` and no `"x"`/`"y"` keys, any store region the translation produces
agrees with the input on every key outside `{"x", "y"}`: restricting the
region to those keys equals the input with the grid axis removed (with values
embedded as plain integers). -/
theorem C5_other_axes_preserved (st : GridHandlerState) (index : List (String × ℤ))
    (hnd : (index.map Prod.fst).Nodup) (hg : "g" ∈ index.map Prod.fst)
    (hx : "x" ∉ index.map Prod.fst) (hy : "y" ∉ index.map Prod.fst)
    (region : List (String × IndexValue))
    (hok : event_index_to_store_index true st index = .ok region) :
    region.filter (fun kv => kv.1 != "x" && kv.1 != "y")
      = (index.filter (fun kv => kv.1 != "g")).map
          (fun kv => (kv.1, IndexValue.int kv.2)) := by
  rcases hpos : pyListGet st.idx_to_pos
      ((index.map Prod.snd).getD ((index.map Prod.fst).indexOf "g") 0) with _ | pos
  · rw [translate_g_error st index hg hpos] at hok
    cases hok
  · rw [translate_g_some st index pos hg hpos] at hok
    have hreg := (Except.ok.inj hok).symm
    subst hreg
    rw [List.filter_append]
    have hhead : ∀ a ∈ (index.eraseIdx ((index.map Prod.fst).indexOf "g")).map
        (fun kv => (kv.1, IndexValue.int kv.2)), (a.1 != "x" && a.1 != "y") = true := by
      intro a ha
      obtain ⟨kv, hkv, rfl⟩ := List.mem_map.mp ha
      have hmem : kv ∈ index := List.eraseIdx_subset index _ hkv
      have hkeym : kv.1 ∈ index.map Prod.fst := List.mem_map_of_mem Prod.fst hmem
      have hkx : kv.1 ≠ "x" := fun he => hx (he ▸ hkeym)
      have hky : kv.1 ≠ "y" := fun he => hy (he ▸ hkeym)
      simp [hkx, hky]
    rw [List.filter_eq_self.mpr hhead]
    have htail : [("x", IndexValue.slc ⟨pyInt (pos.x - st.minPos.1),
            pyInt (pos.x - st.minPos.1) + st.fov.1⟩),
          ("y", IndexValue.slc ⟨pyInt (pos.y - st.minPos.2),
            pyInt (pos.y - st.minPos.2) + st.fov.2⟩)].filter
          (fun kv => kv.1 != "x" && kv.1 != "y") = [] := by
      simp
    rw [htail, List.append_nil, eraseIdx_indexOf_eq_filter index hnd hg]

/-- C5 witness: for the demo translation of `{"g": 3, "t": 1}` the region
restricted to keys outside `{"x", "y"}` is `{"t": 1}`, the input minus the
grid axis. -/
theorem C5_witness :
    ([("g", (3 : ℤ)), ("t", 1)].map Prod.fst).Nodup
    ∧ "g" ∈ [("g", (3 : ℤ)), ("t", 1)].map Prod.fst
    ∧ "x" ∉ [("g", (3 : ℤ)), ("t", 1)].map Prod.fst
    ∧ "y" ∉ [("g", (3 : ℤ)), ("t", 1)].map Prod.fst
    ∧ [("t", IndexValue.int 1), ("x", IndexValue.slc ⟨10, 20⟩),
        ("y", IndexValue.slc ⟨10, 20⟩)].filter (fun kv => kv.1 != "x" && kv.1 != "y")
      = ([("g", (3 : ℤ)), ("t", 1)].filter (fun kv => kv.1 != "g")).map
          (fun kv => (kv.1, IndexValue.int kv.2)) :=
  ⟨by decide, by decide, by decide, by decide,
   C5_other_axes_preserved demoState _ (by decide) (by decide) (by decide) (by decide)
     _ translate_demo_g3⟩

lemma erase_eq_eraseIdx_indexOf (l : List String) (a : String) :
    l.erase a = l.eraseIdx (l.indexOf a) := by
  induction l with
  | nil => rfl
  | cons b l ih =>
    by_cases hb : b = a
    · subst hb
      rw [List.erase_cons_head, List.indexOf_cons_self, List.eraseIdx_cons_zero]
    · rw [List.erase_cons_tail (by simpa using hb), List.indexOf_cons_ne _ hb,
        List.eraseIdx_cons_succ, ih]

/-- C6: when the base labels contain the grid axis `"g"` (and the spatial
labels `"x"`, `"y"`, with `shape` as long as `labels`), the derived layout
removes the grid entry from `chunks` and `labels`, overwrites the shape
entries at the `"x"`/`"y"` label positions with the stitched canvas width and
height, and removes the grid entry from `shape`. -/
theorem C6_grid_layout (st : GridHandlerState) (shape chunks : List ℤ)
    (labels : List String) (hg : "g" ∈ labels) (hx : "x" ∈ labels)
    (hy : "y" ∈ labels) (hlen : shape.length = labels.length) :
    get_shape_chunks_labels st shape chunks labels
      = .ok ((((shape.set (labels.indexOf "x") st.width).set (labels.indexOf "y")
              st.height).eraseIdx (labels.indexOf "g")),
             chunks.eraseIdx (labels.indexOf "g"),
             labels.erase "g") := by
  have hxlt : labels.indexOf "x" < shape.length := by
    rw [hlen]; exact List.indexOf_lt_length.mpr hx
  have hylt : labels.indexOf "y" < shape.length := by
    rw [hlen]; exact List.indexOf_lt_length.mpr hy
  have hglt : labels.indexOf "g" < shape.length := by
    rw [hlen]; exact List.indexOf_lt_length.mpr hg
  simp only [get_shape_chunks_labels, if_pos hg, if_pos (And.intro hx hy),
    if_pos (And.intro hxlt (And.intro hylt hglt))]
  rw [← List.eraseIdx_eq_take_drop_succ, ← List.eraseIdx_eq_take_drop_succ,
    ← List.eraseIdx_eq_take_drop_succ, ← erase_eq_eraseIdx_indexOf]

/-- C6 witness: a concrete layout `["g", "y", "x"]` with per-field shape
`[5, 10, 10]` becomes the stitched `[20, 20]` canvas layout `["y", "x"]`. -/
theorem C6_witness :
    ("g" ∈ ["g", "y", "x"]) ∧ ("x" ∈ ["g", "y", "x"]) ∧ ("y" ∈ ["g", "y", "x"])
    ∧ get_shape_chunks_labels demoState [5, 10, 10] [1, 10, 10] ["g", "y", "x"]
        = .ok ([20, 20], [10, 10], ["y", "x"]) := by
  refine ⟨by decide, by decide, by decide, ?_⟩
  rw [C6_grid_layout demoState [5, 10, 10] [1, 10, 10] ["g", "y", "x"]
    (by decide) (by decide) (by decide) (by decide)]
  rfl

/-- C10: when the base labels do not contain the grid axis `"g"`,
`get_shape_chunks_labels` returns the base `(shape, chunks, labels)` triple
unchanged. -/
theorem C10_no_grid_axis (st : GridHandlerState) (shape chunks : List ℤ)
    (labels : List String) (h : "g" ∉ labels) :
    get_shape_chunks_labels st shape chunks labels = .ok (shape, chunks, labels) := by
  unfold get_shape_chunks_labels
  rw [if_neg h]

/-- C10 witness: a grid-free layout passes through unchanged. -/
theorem C10_witness :
    ("g" ∉ ["t", "y", "x"])
    ∧ get_shape_chunks_labels demoState [5, 20, 20] [1, 20, 20] ["t", "y", "x"]
        = .ok ([5, 20, 20], [1, 20, 20], ["t", "y", "x"]) :=
  ⟨by decide, C10_no_grid_axis demoState _ _ _ (by decide)⟩

/-- C8 counterexample: canvas sizing does not ignore overlap.  Two plans that
differ only in `overlap` (zero versus `(5, 0)`) derive different canvas sizes
(20×20 versus 15×15). -/
theorem C8_counterexample :
    (evaluate_grid_plan (.rowsColumns ⟨2, 2, (0, 0), 10, 10⟩)).map
        (fun st => (st.width, st.height)) = .ok (20, 20)
    ∧ (evaluate_grid_plan (.rowsColumns ⟨2, 2, (5, 0), 10, 10⟩)).map
        (fun st => (st.width, st.height)) = .ok (15, 15) := by
  constructor <;> norm_num [evaluate_grid_plan, pyInt, Except.map]

/-- C8 amended: the derived canvas width and height are independent of the
second overlap component `overlap[1]`; two plans differing only in
`overlap[1]` yield the same canvas size (the first component `overlap[0]`
does enter the size formula). -/
theorem C8_overlap1_independent (r c : ℕ) (o1 o2 o2' fw fh : ℚ) :
    (evaluate_grid_plan (.rowsColumns ⟨r, c, (o1, o2), fw, fh⟩)).map
        (fun st => (st.width, st.height))
      = (evaluate_grid_plan (.rowsColumns ⟨r, c, (o1, o2'), fw, fh⟩)).map
        (fun st => (st.width, st.height)) := rfl

/-- C9: for every `GridRowsColumns` plan the derived canvas height equals the
derived canvas width and both equal (the Python `int` of)
`fov_width * rows - overlap[0] * (rows - 1)`; consequently neither depends on
`columns`, `fov_height`, or `overlap[1]`. -/
theorem C9_canvas_formula (gp : GridRowsColumns) :
    (evaluate_grid_plan (.rowsColumns gp)).map (fun st => (st.width, st.height))
      = .ok (pyInt (gp.fov_width * gp.rows - gp.overlap.1 * ((gp.rows : ℚ) - 1)),
             pyInt (gp.fov_width * gp.rows - gp.overlap.1 * ((gp.rows : ℚ) - 1)))
    ∧ ∀ (c' : ℕ) (fh' o2' : ℚ),
        (evaluate_grid_plan
            (.rowsColumns ⟨gp.rows, c', (gp.overlap.1, o2'), gp.fov_width, fh'⟩)).map
            (fun st => (st.width, st.height))
          = (evaluate_grid_plan (.rowsColumns gp)).map
            (fun st => (st.width, st.height)) :=
  ⟨rfl, fun _ _ _ => rfl⟩

end Pymmcore
